import Mathlib

set_option maxRecDepth 100000

/-!
Verification of the CM2020 telemetry decoder (src/CM2020.py): a shallow
embedding of its buffer synchronization scan, its per-slot record decoder
with carry-forward state, and the ingestion loop, followed by theorems
about the claimed properties.

Numeric readings (Python floats obtained by dividing integers by 100.0,
1000.0 or 10.0) are modelled as rationals: every property proved here is
about which value is selected, stored or zeroed, never about binary
floating-point rounding, so the rational model is faithful.
-/

/-- Python sequence indexing: an index i into a sequence of length n resolves
to i itself when 0 <= i < n, to n + i when -n <= i < 0 (negative indices count
from the end), and raises IndexError (here: none) otherwise. -/
def pyIdx (n : Nat) (i : Int) : Option Nat :=
  if 0 ≤ i then
    if i < (n : Int) then some i.toNat else none
  else
    if 0 ≤ (n : Int) + i then some ((n : Int) + i).toNat else none

/-- Python list read l[i] with Python index semantics. -/
def pyGet (l : List ℚ) (i : Int) : Option ℚ :=
  (pyIdx l.length i).bind fun j => l.get? j

/-- Python list write l[i] = v with Python index semantics; returns the
updated list, or none for an IndexError. -/
def pySet (l : List ℚ) (i : Int) (v : ℚ) : Option (List ℚ) :=
  (pyIdx l.length i).map fun j => l.set j v

/-- One parsed 22-byte slot record, fields as produced by
struct.unpack of the big-endian layout BHBBBHBHHHBBBBBBB (line 70). -/
structure SlotRecord where
  slot : Nat
  c1 : Nat
  prg : Nat
  stg : Nat
  ccap1 : Nat
  ccap2 : Nat
  dcap1 : Nat
  dcap2 : Nat
  volt : Nat
  curr : Nat
  hour : Nat
  minute : Nat
  switch : Nat
  act : Nat
  aux1 : Nat
  maxcurr : Nat
  counter : Nat
  deriving DecidableEq, Repr

/-- struct.unpack of the format BHBBBHBHHHBBBBBBB on a buffer: requires
exactly 22 bytes (struct.error, i.e. none, otherwise) and reads single bytes
and big-endian 16-bit pairs at the fixed offsets of the layout in line 70. -/
def unpackRecord (buf : List Nat) : Option SlotRecord :=
  if buf.length = 22 then
    let b := fun i => buf.getD i 0
    some { slot := b 0, c1 := b 1 * 256 + b 2, prg := b 3, stg := b 4,
           ccap1 := b 5, ccap2 := b 6 * 256 + b 7,
           dcap1 := b 8, dcap2 := b 9 * 256 + b 10,
           volt := b 11 * 256 + b 12, curr := b 13 * 256 + b 14,
           hour := b 15, minute := b 16, switch := b 17, act := b 18,
           aux1 := b 19, maxcurr := b 20, counter := b 21 }
  else none

/-- program_enum (lines 54 to 59): charging-program lookup on the low
nibble of prg; none models a key absent from the Python dict. -/
def program_enum (k : Nat) : Option String :=
  if k = 0x7 then some "Charge"
  else if k = 0x8 then some "Discharge"
  else if k = 0x9 then some "Check"
  else if k = 0xa then some "Cycle"
  else if k = 0xb then some "Alive"
  else none

/-- status_idx (line 82): (prg and 0xf0) / 0x10. The Python expression is
float true division, but prg and 0xf0 is always a multiple of 16, so the
quotient is an exactly representable integer and every comparison made on it
(membership in the lists at lines 85 and 87) agrees with Nat division. -/
def statusIdxOf (r : SlotRecord) : Nat := (r.prg &&& 0xf0) / 16

/-- inst_voltage after the unknown-program fixup (lines 74 and 100 to 102):
volt / 1000.0, forced to 0.0 when the low program nibble is not a key of
program_enum. -/
def instVoltage (r : SlotRecord) : ℚ :=
  if (program_enum (r.prg &&& 0x0f)).isSome then (r.volt : ℚ) / 1000 else 0

/-- inst_current (line 75): curr / 1000.0 (never zeroed). -/
def instCurrent (r : SlotRecord) : ℚ := (r.curr : ℚ) / 1000

/-- The program string stored in the emitted reading (lines 79, 100, 101):
the looked-up name, or the placeholder when the nibble is unknown. -/
def programOf (r : SlotRecord) : String :=
  (program_enum (r.prg &&& 0x0f)).getD "---"

/-- The status classification chain of lines 85 to 98, in source order with
the first match winning. The final fallback branch models the debug string
of line 98; no verified property inspects its exact text. -/
def statusOf (r : SlotRecord) : String :=
  if statusIdxOf r = 4 ∨ statusIdxOf r = 6 ∨ r.stg = 8 then "Finished"
  else if statusIdxOf r = 8 then "Error"
  else if r.stg = 1 ∨ r.stg = 3 ∨ r.stg = 5 then "Charging"
  else if r.stg = 2 ∨ r.stg = 4 ∨ r.stg = 6 then "Discharging"
  else if r.stg = 7 then "Trickle"
  else if (program_enum (r.prg &&& 0x0f)).isNone then "---"
  else "<" ++ toString (statusIdxOf r) ++ " " ++ toString r.stg ++ ">"

/-- The persistent per-slot carry-forward state: the module-level Python
lists last_voltage and last_current (lines 61 and 62), each initialized in
main to ten 0.0 entries. -/
structure SlotsState where
  lastVoltage : List ℚ
  lastCurrent : List ℚ
  deriving DecidableEq, Repr

/-- The record is not authoritative for voltage (condition of line 105):
switch is zero and the high program nibble is zero. -/
def voltHold (r : SlotRecord) : Prop := r.switch = 0 ∧ r.prg &&& 0xf0 = 0

instance (r : SlotRecord) : Decidable (voltHold r) := by
  unfold voltHold; infer_instance

/-- The record is not authoritative for current (condition of line 112):
switch is zero and stg is none of 1, 3, 5. -/
def currHold (r : SlotRecord) : Prop :=
  r.switch = 0 ∧ r.stg ≠ 1 ∧ r.stg ≠ 3 ∧ r.stg ≠ 5

instance (r : SlotRecord) : Decidable (currHold r) := by
  unfold currHold; infer_instance

/-- The voltage branch of lines 105 to 109: either read the carried value
from last_voltage[slot-1], or store inst_voltage there; the pair is the
emitted voltage together with the list after the branch, and none models an
IndexError raised by the subscript. The index is slot - 1 where slot is the
record's first byte (the unpacking at line 70 rebinds slot). -/
def voltPairOf (r : SlotRecord) (st : SlotsState) : Option (ℚ × List ℚ) :=
  if voltHold r then
    (pyGet st.lastVoltage ((r.slot : Int) - 1)).map fun v => (v, st.lastVoltage)
  else
    (pySet st.lastVoltage ((r.slot : Int) - 1) (instVoltage r)).map
      fun l => (instVoltage r, l)

/-- The current branch of lines 112 to 116, analogous to voltPairOf. -/
def currPairOf (r : SlotRecord) (st : SlotsState) : Option (ℚ × List ℚ) :=
  if currHold r then
    (pyGet st.lastCurrent ((r.slot : Int) - 1)).map fun v => (v, st.lastCurrent)
  else
    (pySet st.lastCurrent ((r.slot : Int) - 1) (instCurrent r)).map
      fun l => (instCurrent r, l)

/-- The reading emitted for one slot: the fields of the InfluxDB point built
at lines 129 to 145 (tags and fields), in typed form. The slot tag and the
duration string are kept as their underlying numbers. -/
structure Reading where
  slot : Nat
  status : String
  program : String
  ccap : ℚ
  dcap : ℚ
  voltage : ℚ
  current : ℚ
  maxCurr : ℚ
  hour : Nat
  minute : Nat
  deriving DecidableEq, Repr

/-- process_slot (lines 64 to 146). The position argument is the slot number
passed by the caller (line 199); the tuple unpacking at line 70 immediately
rebinds the name slot to the record's first byte, so position is used only in
the debug log of line 69 and nowhere below. Returns the emitted reading and
the two carry-forward lists after the call, or none when the Python code
raises (struct.error on a record that is not 22 bytes, or IndexError when
slot - 1 falls outside the ten-entry lists). -/
def process_slot (position : Nat) (buf : List Nat) (st : SlotsState) :
    Option (Reading × SlotsState) :=
  (unpackRecord buf).bind fun r =>
    (voltPairOf r st).bind fun vp =>
      (currPairOf r st).map fun cp =>
        ({ slot := r.slot, status := statusOf r, program := programOf r,
           ccap := ((r.ccap1 * 0x10000 + r.ccap2 : Nat) : ℚ) / 100,
           dcap := ((r.dcap1 * 0x10000 + r.dcap2 : Nat) : ℚ) / 100,
           voltage := vp.1, current := cp.1,
           maxCurr := (r.maxcurr : ℚ) / 10,
           hour := r.hour, minute := r.minute },
         { lastVoltage := vp.2, lastCurrent := cp.2 })

/-- The acceptance test of the synchronization scan (lines 165 to 169): an
offset is accepted only if for every slot index 0..9 the byte at
offset + slot * 22 equals slot + 1. The buffer access is modelled with a
getD default of 0, which never matches; during the scan the index stays
below 418 and the scan only runs with at least 440 buffered bytes, so the
default is never consulted under the program's own precondition. -/
def checkOffset (buffer : List Nat) (offset : Nat) : Bool :=
  (List.range 10).all fun slot => buffer.getD (offset + slot * 22) 0 == slot + 1

/-- The scan loop of lines 164 to 173, fuel-indexed: try the candidate
offsets offset, offset+1, ... (fuel many) and return the first accepted one. -/
def scanFrom (buffer : List Nat) : Nat → Nat → Option Nat
  | _, 0 => none
  | offset, fuel + 1 =>
    if checkOffset buffer offset then some offset
    else scanFrom buffer (offset + 1) fuel

/-- The full synchronization scan: for offset in range(220), first accepted
offset wins; none models the found = False exit (line 175). -/
def findSync (buffer : List Nat) : Option Nat := scanFrom buffer 0 220

/-- The outcome of the synchronization section of proces_data
(lines 163 to 180): the result of the scan, the buffer after the section,
and whether buff_lock is still held when the section is left. The lock is
acquired at line 163; on success the buffer is trimmed (line 179) and the
lock released (line 180); the failure path returns at line 177 without
releasing. -/
structure SyncExit where
  result : Option Nat
  buffer : List Nat
  lockHeld : Bool
  deriving DecidableEq, Repr

/-- The synchronization section of proces_data (lines 163 to 180) as a
function of the buffer contents at the scan. -/
def syncSection (buffer : List Nat) : SyncExit :=
  match findSync buffer with
  | some offset =>
    { result := some offset, buffer := buffer.drop offset, lockHeld := false }
  | none =>
    { result := none, buffer := buffer, lockHeld := true }

/-- A threading.Lock acquire on a lock in the given held state blocks the
caller exactly when the lock is held. -/
def acquireBlocks (held : Bool) : Bool := held

/-- The shared state the two loops communicate through: the module globals
running (line 24) and buffer (line 25). -/
structure PipeState where
  running : Bool
  buffer : List Nat
  deriving DecidableEq, Repr

/-- max_buff_size (line 26). -/
def max_buff_size : Nat := 1000

/-- The overflow check at the tail of the read_serial loop body
(lines 46 to 49): if the buffer length exceeds max_buff_size, running is
cleared and the loop breaks; the returned Bool is whether the loop
continues (the while guard of line 37 rechecks running). -/
def readSerialCheck (s1 : PipeState) : PipeState × Bool :=
  if max_buff_size < s1.buffer.length then ({ s1 with running := false }, false)
  else (s1, s1.running)

/-- One iteration of the while body of read_serial (lines 38 to 49): n is
device.in_waiting, chunk the bytes device.read(n) returned; bytes are
appended only when n exceeds 50 (line 39), then the overflow check runs. -/
def readSerialIter (n : Nat) (chunk : List Nat) (s : PipeState) :
    PipeState × Bool :=
  readSerialCheck (if 50 < n then { s with buffer := s.buffer ++ chunk } else s)

/-- A sequence of read_serial iterations, each poll given as the pair of
in_waiting and the bytes read; stops early when an iteration breaks or the
while guard fails. -/
def runPolls : List (Nat × List Nat) → PipeState → PipeState
  | [], s => s
  | (n, chunk) :: rest, s =>
    match readSerialIter n chunk s with
    | (s1, true) => runPolls rest s1
    | (s1, false) => s1

/-- The guard of the steady-state wait loop of proces_data (line 188):
the loop keeps waiting while fewer than 220 bytes are buffered. The guard
reads only the buffer; the running flag is not consulted anywhere in
proces_data. -/
def procesWaitGuard (buffer : List Nat) : Bool := buffer.length < 220

/-- Whether the wait loop of lines 188 to 190 has exited within the given
number of sleep iterations, under a buffer that no longer grows (ingestion
halted): each iteration re-evaluates the guard on the same buffer. -/
def procesWaitExits : Nat → List Nat → Bool
  | 0, buffer => !procesWaitGuard buffer
  | fuel + 1, buffer =>
    if procesWaitGuard buffer then procesWaitExits fuel buffer else true

/-- The Python index slot - 1 resolved on a ten-entry list: entry slot - 1
for a positive slot byte, and entry 9 (the last, via Python's negative
indexing) when the slot byte is 0. Only meaningful for slot bytes up to 10. -/
def slotCell (b : Nat) : Nat := if b = 0 then 9 else b - 1

lemma pyIdx_slot (b : Nat) (hb : b ≤ 10) :
    pyIdx 10 ((b : Int) - 1) = some (slotCell b) := by
  rcases b with _ | k
  · decide
  · unfold pyIdx slotCell
    have h0 : (0 : Int) ≤ ((k + 1 : Nat) : Int) - 1 := by push_cast; omega
    have h1 : ((k + 1 : Nat) : Int) - 1 < ((10 : Nat) : Int) := by
      push_cast; omega
    rw [if_pos h0, if_pos h1]
    have h2 : ((k + 1 : Nat) : Int) - 1 = (k : Int) := by push_cast; ring
    rw [h2]
    simp

lemma pyGet_slot (l : List ℚ) (b : Nat) (hl : l.length = 10) (hb : b ≤ 10) :
    pyGet l ((b : Int) - 1) = some (l.getD (slotCell b) 0) := by
  have hcell : slotCell b < l.length := by
    rw [hl]; unfold slotCell; split <;> omega
  unfold pyGet
  rw [hl, pyIdx_slot b hb, Option.some_bind, List.get?_eq_get hcell,
    List.getD_eq_getElem _ _ hcell]
  rfl

lemma pySet_slot (l : List ℚ) (b : Nat) (v : ℚ) (hl : l.length = 10)
    (hb : b ≤ 10) :
    pySet l ((b : Int) - 1) v = some (l.set (slotCell b) v) := by
  unfold pySet
  rw [hl, pyIdx_slot b hb, Option.map_some']

/-- The reading process_slot emits when its subscripts are in range, as an
explicit function of the record and the incoming state. -/
def readingOf (r : SlotRecord) (st : SlotsState) : Reading :=
  { slot := r.slot, status := statusOf r, program := programOf r,
    ccap := ((r.ccap1 * 0x10000 + r.ccap2 : Nat) : ℚ) / 100,
    dcap := ((r.dcap1 * 0x10000 + r.dcap2 : Nat) : ℚ) / 100,
    voltage := if voltHold r then st.lastVoltage.getD (slotCell r.slot) 0
               else instVoltage r,
    current := if currHold r then st.lastCurrent.getD (slotCell r.slot) 0
               else instCurrent r,
    maxCurr := (r.maxcurr : ℚ) / 10,
    hour := r.hour, minute := r.minute }

/-- The carry-forward state after process_slot when its subscripts are in
range. -/
def stateOf (r : SlotRecord) (st : SlotsState) : SlotsState :=
  { lastVoltage := if voltHold r then st.lastVoltage
                   else st.lastVoltage.set (slotCell r.slot) (instVoltage r),
    lastCurrent := if currHold r then st.lastCurrent
                   else st.lastCurrent.set (slotCell r.slot) (instCurrent r) }

lemma process_slot_eq (pos : Nat) (buf : List Nat) (st : SlotsState)
    (r : SlotRecord) (hr : unpackRecord buf = some r) (hslot : r.slot ≤ 10)
    (hv : st.lastVoltage.length = 10) (hc : st.lastCurrent.length = 10) :
    process_slot pos buf st = some (readingOf r st, stateOf r st) := by
  unfold process_slot readingOf stateOf
  rw [hr, Option.some_bind]
  unfold voltPairOf currPairOf
  rw [pyGet_slot _ _ hv hslot, pySet_slot _ _ _ hv hslot,
    pyGet_slot _ _ hc hslot, pySet_slot _ _ _ hc hslot]
  split_ifs <;> simp [Option.map_some']

lemma unpackRecord_of_len (buf : List Nat) (hlen : buf.length = 22) :
    ∃ r, unpackRecord buf = some r ∧ r.slot = buf.getD 0 0 := by
  unfold unpackRecord
  rw [if_pos hlen]
  exact ⟨_, rfl, rfl⟩

lemma unpackRecord_slot (buf : List Nat) (r : SlotRecord)
    (hr : unpackRecord buf = some r) : r.slot = buf.getD 0 0 := by
  unfold unpackRecord at hr
  split at hr
  · cases hr; rfl
  · cases hr

/-- One iteration of the steady processing loop (lines 187 to 206) as seen
by the buffer once ingestion has stopped: when at least 220 bytes are
present the leading frame is removed (lines 193 and 194); otherwise the
wait loop of lines 188 to 190 blocks, modelled as none. -/
def steadyIter (buffer : List Nat) : Option (List Nat) :=
  if 220 ≤ buffer.length then some (buffer.drop 220) else none

/-- The buffer after the given number of steady-loop iterations, none when
an iteration blocks in the wait loop. -/
def steadyRun : Nat → List Nat → Option (List Nat)
  | 0, buffer => some buffer
  | k + 1, buffer => (steadyIter buffer).bind (steadyRun k)

/-- A valid frame begins at offset k of the buffer: the byte at k + s * 22
equals s + 1 for every slot index s below 10 (the claim's and the scan's
acceptance condition). -/
def validFrameAt (buffer : List Nat) (k : Nat) : Prop :=
  ∀ s < 10, buffer.getD (k + s * 22) 0 = s + 1

instance (buffer : List Nat) (k : Nat) : Decidable (validFrameAt buffer k) := by
  unfold validFrameAt; infer_instance

lemma checkOffset_iff (buffer : List Nat) (k : Nat) :
    checkOffset buffer k = true ↔ validFrameAt buffer k := by
  unfold checkOffset validFrameAt
  simp [List.all_eq_true, List.mem_range]

lemma scanFrom_eq_some (buffer : List Nat) (k : Nat) :
    ∀ fuel offset, offset ≤ k → k < offset + fuel →
      checkOffset buffer k = true →
      (∀ j, offset ≤ j → j < k → checkOffset buffer j = false) →
      scanFrom buffer offset fuel = some k
  | 0, offset => by
    intro h1 h2 _ _
    omega
  | fuel + 1, offset => by
    intro h1 h2 hk hlow
    unfold scanFrom
    rcases Nat.eq_or_lt_of_le h1 with heq | hlt
    · subst heq
      rw [if_pos hk]
    · have hoff : checkOffset buffer offset = false := hlow offset le_rfl hlt
      rw [if_neg (by simp [hoff])]
      exact scanFrom_eq_some buffer k fuel (offset + 1) hlt (by omega) hk
        (fun j hj1 hj2 => hlow j (by omega) hj2)

/-- C1 (amended with the bound k < 220): whenever at least 440 bytes are
buffered, a valid frame begins at offset k, k is the lowest such offset and
k lies in the scanned candidate range 0..219, the synchronization scan of
proces_data returns k; the scan accepts an offset only if all ten slot
marker bytes match (validFrameAt is exactly that acceptance condition). -/
theorem c1_sync_finds_lowest (buffer : List Nat) (k : Nat)
    (hlen : 440 ≤ buffer.length) (hk : k < 220)
    (hvalid : validFrameAt buffer k)
    (hlow : ∀ j, j < k → ¬ validFrameAt buffer j) :
    findSync buffer = some k := by
  unfold findSync
  exact scanFrom_eq_some buffer k 220 0 (Nat.zero_le k) (by omega)
    ((checkOffset_iff buffer k).mpr hvalid)
    (fun j _ hj => Bool.eq_false_iff.mpr
      (fun hh => hlow j hj ((checkOffset_iff buffer j).mp hh)))

/-- One valid 220-byte frame: the marker byte s + 1 at each offset s * 22,
zero elsewhere. -/
def frameBytes : List Nat :=
  (List.range 220).map fun i => if i % 22 = 0 then i / 22 + 1 else 0

/-- Two junk bytes followed by two valid frames; the lowest valid offset
is 2. -/
def c1SyncBuf : List Nat := [0, 0] ++ frameBytes ++ frameBytes

theorem c1_sync_finds_lowest_witness :
    440 ≤ c1SyncBuf.length ∧ findSync c1SyncBuf = some 2 :=
  ⟨by decide,
   c1_sync_finds_lowest c1SyncBuf 2 (by decide) (by decide) (by decide)
     (by decide)⟩

/-- 220 junk bytes followed by one valid frame: the lowest (and only)
valid offset is 220, just past the candidate range the scan tries. -/
def c1CexBuf : List Nat := List.replicate 220 0 ++ frameBytes

/-- C1 counterexample: a 440-byte buffer whose lowest valid frame offset is
220; the claim as stated says the scan returns 220, but the scan tries only
offsets 0..219 and reports failure. -/
theorem c1_counterexample :
    c1CexBuf.length = 440 ∧ validFrameAt c1CexBuf 220 ∧
    (∀ j, j < 220 → ¬ validFrameAt c1CexBuf j) ∧
    findSync c1CexBuf = none := by
  refine ⟨by decide, by decide, by decide, by decide⟩

/-- C9: the synchronization section releases buff_lock exactly on the
success path; when the scan exhausts all candidates, the early return of
line 177 leaves the lock held, so any later acquire by the ingestion side
blocks forever. -/
theorem c9_sync_failure_keeps_lock (buffer : List Nat) :
    (syncSection buffer).lockHeld = (findSync buffer).isNone ∧
    (findSync buffer = none →
      (syncSection buffer).result = none ∧
      (syncSection buffer).buffer = buffer ∧
      acquireBlocks (syncSection buffer).lockHeld = true) := by
  unfold syncSection
  cases h : findSync buffer <;> simp [acquireBlocks, h]

/-- A 440-byte buffer of zeroes: no offset satisfies the marker condition,
so the scan fails. -/
def c9Buf : List Nat := List.replicate 440 0

theorem c9_sync_failure_keeps_lock_witness :
    acquireBlocks (syncSection c9Buf).lockHeld = true :=
  ((c9_sync_failure_keeps_lock c9Buf).2 (by decide)).2.2

/-- C10: a poll of the read_serial loop appends nothing unless the device
reports more than 50 waiting bytes, so any run of polls that each report at
most 50 bytes leaves the shared buffer untouched: a trailing remainder of
at most 50 bytes is never ingested. -/
theorem c10_small_reads_never_ingested (polls : List (Nat × List Nat))
    (s : PipeState) (h : ∀ p ∈ polls, p.1 ≤ 50) :
    (runPolls polls s).buffer = s.buffer := by
  induction polls generalizing s with
  | nil => rfl
  | cons p rest ih =>
    obtain ⟨n, chunk⟩ := p
    have hn : ¬ 50 < n := by
      have h0 := h (n, chunk) (List.mem_cons_self _ _)
      simp only at h0
      omega
    have hrest : ∀ p ∈ rest, p.1 ≤ 50 :=
      fun q hq => h q (List.mem_cons_of_mem _ hq)
    unfold runPolls readSerialIter readSerialCheck
    rw [if_neg hn]
    by_cases hov : max_buff_size < s.buffer.length
    · rw [if_pos hov]
    · rw [if_neg hov]
      cases hr : s.running
      · simp
      · simpa using ih s hrest

theorem c10_small_reads_never_ingested_witness :
    (runPolls [(50, [1, 2, 3]), (10, [4]), (0, [])]
      { running := true, buffer := [9, 9] }).buffer = [9, 9] :=
  c10_small_reads_never_ingested [(50, [1, 2, 3]), (10, [4]), (0, [])]
    { running := true, buffer := [9, 9] } (by decide)

lemma procesWait_never (buffer : List Nat) (h : buffer.length < 220) :
    ∀ fuel, procesWaitExits fuel buffer = false := by
  intro fuel
  induction fuel with
  | zero => simp [procesWaitExits, procesWaitGuard, h]
  | succ n ih => simp [procesWaitExits, procesWaitGuard, h, ih]

/-- C8 (amended): when the buffered length exceeds the 1000-byte threshold
between appends, the ingestion loop clears running and breaks, halting the
ingestion activity only; the frame-processing side never consults the flag,
and once fewer than 220 bytes are buffered its wait loop never exits, for
any number of sleep iterations. -/
theorem c8_overflow_halts_only_ingestion (n : Nat) (chunk : List Nat)
    (s : PipeState)
    (hof : max_buff_size <
      (if 50 < n then s.buffer ++ chunk else s.buffer).length) :
    ((readSerialIter n chunk s).1.running = false ∧
     (readSerialIter n chunk s).2 = false) ∧
    ∀ buffer : List Nat, buffer.length < 220 →
      ∀ fuel, procesWaitExits fuel buffer = false := by
  refine ⟨?_, fun buffer hb fuel => procesWait_never buffer hb fuel⟩
  unfold readSerialIter readSerialCheck
  by_cases h50 : 50 < n
  · rw [if_pos h50] at hof ⊢
    rw [List.length_append] at hof
    simp [hof]
  · rw [if_neg h50] at hof ⊢
    simp [hof]

theorem c8_overflow_halts_only_ingestion_witness :
    (((readSerialIter 60 (List.replicate 1000 0)
        { running := true, buffer := [0] }).1.running = false ∧
      (readSerialIter 60 (List.replicate 1000 0)
        { running := true, buffer := [0] }).2 = false) ∧
     ∀ buffer : List Nat, buffer.length < 220 →
       ∀ fuel, procesWaitExits fuel buffer = false) :=
  c8_overflow_halts_only_ingestion 60 (List.replicate 1000 0)
    { running := true, buffer := [0] } (by decide)

/-- The buffer contents right after an overflowing append: 1001 bytes. -/
def c8Buf : List Nat := List.replicate 1001 0

/-- C8 counterexample: from a buffer of 1001 bytes the ingestion iteration
halts (running cleared, loop broken), but the frame-processing loop does
not: it drains the four complete frames, is left with 121 bytes, and its
wait loop then never exits however many sleep iterations pass — the claim
that the whole pipeline, processing loop included, stops is false. -/
theorem c8_counterexample :
    readSerialIter 0 [] { running := true, buffer := c8Buf } =
      ({ running := false, buffer := c8Buf }, false) ∧
    steadyRun 4 c8Buf = some (List.replicate 121 0) ∧
    steadyIter (List.replicate 121 0) = none ∧
    ∀ fuel, procesWaitExits fuel (List.replicate 121 0) = false := by
  refine ⟨by decide, by decide, by decide,
    fun fuel => procesWait_never _ (by decide) fuel⟩

/-- A 22-byte record whose first byte is 11: slot - 1 = 10 falls outside the
ten-entry carry-forward lists. -/
def c2BadBuf : List Nat := 11 :: List.replicate 21 0

/-- The startup state: ten 0.0 entries in each carry-forward list
(lines 255 to 257). -/
def zeroState : SlotsState :=
  { lastVoltage := List.replicate 10 0, lastCurrent := List.replicate 10 0 }

/-- C2 counterexample: with the record's first byte 11 (and switch 0, prg 0,
so the carry-forward branch reads last_voltage[10]), process_slot raises an
IndexError instead of completing, refuting the claim for arbitrary record
contents. -/
theorem c2_counterexample : process_slot 1 c2BadBuf zeroState = none := by
  decide

/-- C2 (amended with a bound on the record's first byte): process_slot
completes without a runtime error on every 22-byte record whose first byte
is at most 10 (a first byte of 0 subscripts entry 9 through Python's
negative indexing), whatever the other 21 bytes, for any position argument
and any ten-entry carry-forward state. -/
theorem c2_no_error (pos : Nat) (buf : List Nat) (st : SlotsState)
    (hlen : buf.length = 22) (hb : buf.getD 0 0 ≤ 10)
    (hv : st.lastVoltage.length = 10) (hc : st.lastCurrent.length = 10) :
    (process_slot pos buf st).isSome = true := by
  obtain ⟨r, hr, hs⟩ := unpackRecord_of_len buf hlen
  rw [process_slot_eq pos buf st r hr (by rw [hs]; exact hb) hv hc]
  rfl

/-- A 22-byte record of zeroes except a first byte of 1. -/
def c2GoodBuf : List Nat := 1 :: List.replicate 21 0

theorem c2_no_error_witness :
    (process_slot 5 c2GoodBuf zeroState).isSome = true :=
  c2_no_error 5 c2GoodBuf zeroState (by decide) (by decide) (by decide)
    (by decide)

/-- C3: the slot index process_slot actually uses is the record's first
byte, which shadows the position argument at the unpacking of line 70: the
result does not depend on position at all, the emitted reading's slot tag is
the first byte, and the carry-forward cell read (when holding) or written
(when authoritative) is the Python subscript first byte minus one of that
other slot's list entries. -/
theorem c3_slot_shadowing (p1 p2 : Nat) (buf : List Nat) (st : SlotsState)
    (r : SlotRecord) (hr : unpackRecord buf = some r) :
    process_slot p1 buf st = process_slot p2 buf st ∧
    ∀ rd st2, process_slot p1 buf st = some (rd, st2) →
      rd.slot = buf.getD 0 0 ∧
      (voltHold r →
        some rd.voltage = pyGet st.lastVoltage ((buf.getD 0 0 : Int) - 1)) ∧
      (¬ voltHold r →
        pySet st.lastVoltage ((buf.getD 0 0 : Int) - 1) (instVoltage r) =
          some st2.lastVoltage ∧ rd.voltage = instVoltage r) ∧
      (currHold r →
        some rd.current = pyGet st.lastCurrent ((buf.getD 0 0 : Int) - 1)) ∧
      (¬ currHold r →
        pySet st.lastCurrent ((buf.getD 0 0 : Int) - 1) (instCurrent r) =
          some st2.lastCurrent ∧ rd.current = instCurrent r) := by
  have hslot := unpackRecord_slot buf r hr
  refine ⟨rfl, ?_⟩
  intro rd st2 h
  unfold process_slot at h
  rw [hr, Option.some_bind] at h
  cases hvp : voltPairOf r st with
  | none => rw [hvp] at h; simp at h
  | some vp =>
    rw [hvp, Option.some_bind] at h
    cases hcp : currPairOf r st with
    | none => rw [hcp] at h; simp at h
    | some cp =>
      rw [hcp, Option.map_some'] at h
      simp only [Option.some.injEq, Prod.mk.injEq] at h
      obtain ⟨hrd, hst2⟩ := h
      subst hrd
      subst hst2
      rw [← hslot]
      refine ⟨rfl, ?_, ?_, ?_, ?_⟩
      · intro hh
        unfold voltPairOf at hvp
        rw [if_pos hh] at hvp
        obtain ⟨v, hv1, hv2⟩ := Option.map_eq_some'.mp hvp
        rw [hv1, ← hv2]
      · intro hh
        unfold voltPairOf at hvp
        rw [if_neg hh] at hvp
        obtain ⟨l, hl1, hl2⟩ := Option.map_eq_some'.mp hvp
        rw [hl1, ← hl2]
        exact ⟨rfl, rfl⟩
      · intro hh
        unfold currPairOf at hcp
        rw [if_pos hh] at hcp
        obtain ⟨v, hv1, hv2⟩ := Option.map_eq_some'.mp hcp
        rw [hv1, ← hv2]
      · intro hh
        unfold currPairOf at hcp
        rw [if_neg hh] at hcp
        obtain ⟨l, hl1, hl2⟩ := Option.map_eq_some'.mp hcp
        rw [hl1, ← hl2]
        exact ⟨rfl, rfl⟩

/-- A record whose first byte (4) differs from the position the caller will
pass: prg 0x17, stg 1, volt 5000, curr 1000, switch 1. -/
def c3Buf : List Nat :=
  [4, 0, 0, 0x17, 1, 0, 0, 0, 0, 0, 0, 0x13, 0x88, 0x03, 0xe8, 0, 30, 1, 0,
   0, 25, 0]

/-- The record c3Buf parses to. -/
def c3Rec : SlotRecord :=
  { slot := 4, c1 := 0, prg := 0x17, stg := 1, ccap1 := 0, ccap2 := 0,
    dcap1 := 0, dcap2 := 0, volt := 5000, curr := 1000, hour := 0,
    minute := 30, switch := 1, act := 0, aux1 := 0, maxcurr := 25,
    counter := 0 }

/-- A state with distinct carry-forward entries per slot. -/
def c3St : SlotsState :=
  { lastVoltage := [1, 2, 3, 4, 5, 6, 7, 8, 9, 10],
    lastCurrent := [11, 12, 13, 14, 15, 16, 17, 18, 19, 20] }

theorem c3_slot_shadowing_witness :
    process_slot 1 c3Buf c3St = process_slot 7 c3Buf c3St :=
  (c3_slot_shadowing 1 7 c3Buf c3St c3Rec (by decide)).1

/-- C4: the voltage carry-forward rule of lines 105 to 109. On a record
with switch 0 and zero high program nibble the emitted voltage is the
slot's stored last voltage — whatever the raw voltage bytes — and the
stored list is unchanged; on any other record, inst voltage (the parsed
value after the unknown-program fixup) is both stored and emitted. -/
theorem c4_voltage_carry (pos : Nat) (buf : List Nat) (st : SlotsState)
    (r : SlotRecord) (hr : unpackRecord buf = some r) (hslot : r.slot ≤ 10)
    (hv : st.lastVoltage.length = 10) (hc : st.lastCurrent.length = 10) :
    ∃ rd st2, process_slot pos buf st = some (rd, st2) ∧
      (voltHold r →
        rd.voltage = st.lastVoltage.getD (slotCell r.slot) 0 ∧
        st2.lastVoltage = st.lastVoltage) ∧
      (¬ voltHold r →
        rd.voltage = instVoltage r ∧
        st2.lastVoltage =
          st.lastVoltage.set (slotCell r.slot) (instVoltage r)) := by
  refine ⟨_, _, process_slot_eq pos buf st r hr hslot hv hc, ?_, ?_⟩
  · intro h
    constructor
    · show (readingOf r st).voltage = _
      unfold readingOf
      rw [if_pos h]
    · show (stateOf r st).lastVoltage = _
      unfold stateOf
      rw [if_pos h]
  · intro h
    constructor
    · show (readingOf r st).voltage = _
      unfold readingOf
      rw [if_neg h]
    · show (stateOf r st).lastVoltage = _
      unfold stateOf
      rw [if_neg h]

/-- A non-authoritative-for-voltage record: first byte 2, prg 0x07
(program Charge, high nibble zero), stg 2, switch 0, raw voltage 5000. -/
def c4Buf : List Nat :=
  [2, 0, 0, 0x07, 2, 0, 0, 0, 0, 0, 0, 0x13, 0x88, 0, 0, 0, 0, 0, 0, 0, 0, 0]

/-- The record c4Buf parses to. -/
def c4Rec : SlotRecord :=
  { slot := 2, c1 := 0, prg := 0x07, stg := 2, ccap1 := 0, ccap2 := 0,
    dcap1 := 0, dcap2 := 0, volt := 5000, curr := 0, hour := 0, minute := 0,
    switch := 0, act := 0, aux1 := 0, maxcurr := 0, counter := 0 }

/-- A state carrying the voltage 9/4 for slot 2. -/
def c4St : SlotsState :=
  { lastVoltage := [1/2, 9/4, 3, 4, 5, 6, 7, 8, 9, 10],
    lastCurrent := List.replicate 10 0 }

theorem c4_voltage_carry_witness :
    ∃ rd st2, process_slot 2 c4Buf c4St = some (rd, st2) ∧
      (voltHold c4Rec →
        rd.voltage = c4St.lastVoltage.getD (slotCell c4Rec.slot) 0 ∧
        st2.lastVoltage = c4St.lastVoltage) ∧
      (¬ voltHold c4Rec →
        rd.voltage = instVoltage c4Rec ∧
        st2.lastVoltage =
          c4St.lastVoltage.set (slotCell c4Rec.slot) (instVoltage c4Rec)) :=
  c4_voltage_carry 2 c4Buf c4St c4Rec (by decide) (by decide) (by decide)
    (by decide)

/-- C5: the current carry-forward rule of lines 112 to 116. On a record
with switch 0 and stg outside 1, 3, 5 the emitted current is the slot's
stored last current and the stored list is unchanged; on any other record
(switch nonzero, or stg in 1, 3, 5) inst current is both stored and
emitted. -/
theorem c5_current_carry (pos : Nat) (buf : List Nat) (st : SlotsState)
    (r : SlotRecord) (hr : unpackRecord buf = some r) (hslot : r.slot ≤ 10)
    (hv : st.lastVoltage.length = 10) (hc : st.lastCurrent.length = 10) :
    ∃ rd st2, process_slot pos buf st = some (rd, st2) ∧
      (currHold r →
        rd.current = st.lastCurrent.getD (slotCell r.slot) 0 ∧
        st2.lastCurrent = st.lastCurrent) ∧
      (¬ currHold r →
        rd.current = instCurrent r ∧
        st2.lastCurrent =
          st.lastCurrent.set (slotCell r.slot) (instCurrent r)) := by
  refine ⟨_, _, process_slot_eq pos buf st r hr hslot hv hc, ?_, ?_⟩
  · intro h
    constructor
    · show (readingOf r st).current = _
      unfold readingOf
      rw [if_pos h]
    · show (stateOf r st).lastCurrent = _
      unfold stateOf
      rw [if_pos h]
  · intro h
    constructor
    · show (readingOf r st).current = _
      unfold readingOf
      rw [if_neg h]
    · show (stateOf r st).lastCurrent = _
      unfold stateOf
      rw [if_neg h]

/-- A non-authoritative-for-current record: first byte 3, prg 0x07, stg 2
(Discharging), switch 0, raw current 1000. -/
def c5Buf : List Nat :=
  [3, 0, 0, 0x07, 2, 0, 0, 0, 0, 0, 0, 0, 0, 0x03, 0xe8, 0, 0, 0, 0, 0, 0, 0]

/-- The record c5Buf parses to. -/
def c5Rec : SlotRecord :=
  { slot := 3, c1 := 0, prg := 0x07, stg := 2, ccap1 := 0, ccap2 := 0,
    dcap1 := 0, dcap2 := 0, volt := 0, curr := 1000, hour := 0, minute := 0,
    switch := 0, act := 0, aux1 := 0, maxcurr := 0, counter := 0 }

/-- A state carrying the current 13 for slot 3. -/
def c5St : SlotsState :=
  { lastVoltage := List.replicate 10 0,
    lastCurrent := [11, 12, 13, 14, 15, 16, 17, 18, 19, 20] }

theorem c5_current_carry_witness :
    ∃ rd st2, process_slot 3 c5Buf c5St = some (rd, st2) ∧
      (currHold c5Rec →
        rd.current = c5St.lastCurrent.getD (slotCell c5Rec.slot) 0 ∧
        st2.lastCurrent = c5St.lastCurrent) ∧
      (¬ currHold c5Rec →
        rd.current = instCurrent c5Rec ∧
        st2.lastCurrent =
          c5St.lastCurrent.set (slotCell c5Rec.slot) (instCurrent c5Rec)) :=
  c5_current_carry 3 c5Buf c5St c5Rec (by decide) (by decide) (by decide)
    (by decide)

/-- C6: an unrecognized low program nibble (outside 7..11) classifies the
program as the unknown placeholder and forces inst voltage to 0.0 before
the carry-forward branch, so whenever such a record is authoritative for
voltage, both the emitted voltage and the newly stored last voltage are
zero, whatever the raw voltage bytes. -/
theorem c6_unknown_program_zeroes (pos : Nat) (buf : List Nat)
    (st : SlotsState) (r : SlotRecord) (hr : unpackRecord buf = some r)
    (hslot : r.slot ≤ 10) (hv : st.lastVoltage.length = 10)
    (hc : st.lastCurrent.length = 10)
    (hprg : r.prg &&& 0x0f ≠ 7 ∧ r.prg &&& 0x0f ≠ 8 ∧ r.prg &&& 0x0f ≠ 9 ∧
      r.prg &&& 0x0f ≠ 10 ∧ r.prg &&& 0x0f ≠ 11) :
    instVoltage r = 0 ∧ programOf r = "---" ∧
    ∃ rd st2, process_slot pos buf st = some (rd, st2) ∧
      rd.program = "---" ∧
      (¬ voltHold r →
        rd.voltage = 0 ∧
        st2.lastVoltage = st.lastVoltage.set (slotCell r.slot) 0) := by
  obtain ⟨h7, h8, h9, h10, h11⟩ := hprg
  have henum : program_enum (r.prg &&& 0x0f) = none := by
    unfold program_enum
    rw [if_neg h7, if_neg h8, if_neg h9, if_neg h10, if_neg h11]
  have hiv : instVoltage r = 0 := by
    unfold instVoltage
    rw [henum]
    rfl
  have hpr : programOf r = "---" := by
    unfold programOf
    rw [henum]
    rfl
  refine ⟨hiv, hpr, _, _, process_slot_eq pos buf st r hr hslot hv hc,
    hpr, ?_⟩
  intro h
  constructor
  · show (readingOf r st).voltage = 0
    unfold readingOf
    rw [if_neg h, hiv]
  · show (stateOf r st).lastVoltage = _
    unfold stateOf
    rw [if_neg h, hiv]

/-- An unknown-program record: first byte 5, prg 0x40 (low nibble 0 is not
a program key; high nibble 4 makes the record authoritative for voltage),
stg 1, raw voltage 5000, switch 0. -/
def c6Buf : List Nat :=
  [5, 0, 0, 0x40, 1, 0, 0, 0, 0, 0, 0, 0x13, 0x88, 0, 0, 0, 0, 0, 0, 0, 0, 0]

/-- The record c6Buf parses to. -/
def c6Rec : SlotRecord :=
  { slot := 5, c1 := 0, prg := 0x40, stg := 1, ccap1 := 0, ccap2 := 0,
    dcap1 := 0, dcap2 := 0, volt := 5000, curr := 0, hour := 0, minute := 0,
    switch := 0, act := 0, aux1 := 0, maxcurr := 0, counter := 0 }

theorem c6_unknown_program_zeroes_witness :
    instVoltage c6Rec = 0 ∧ programOf c6Rec = "---" ∧
    ∃ rd st2, process_slot 5 c6Buf c3St = some (rd, st2) ∧
      rd.program = "---" ∧
      (¬ voltHold c6Rec →
        rd.voltage = 0 ∧
        st2.lastVoltage = c3St.lastVoltage.set (slotCell c6Rec.slot) 0) :=
  c6_unknown_program_zeroes 5 c6Buf c3St c6Rec (by decide) (by decide)
    (by decide) (by decide) (by decide)

/-- C7: the status chain of lines 85 to 98 takes its branches in source
order with the first match winning: a record whose status index (the high
program nibble shifted down) is 4 and whose stage is 1 is classified
Finished by the first branch, not Charging by the later stage branch. -/
theorem c7_status_priority (pos : Nat) (buf : List Nat) (st : SlotsState)
    (r : SlotRecord) (hr : unpackRecord buf = some r) (hslot : r.slot ≤ 10)
    (hv : st.lastVoltage.length = 10) (hc : st.lastCurrent.length = 10)
    (hidx : (r.prg &&& 0xf0) >>> 4 = 4) (hstg : r.stg = 1) :
    ∃ rd st2, process_slot pos buf st = some (rd, st2) ∧
      rd.status = "Finished" ∧ rd.status ≠ "Charging" := by
  have hix : statusIdxOf r = 4 := by
    unfold statusIdxOf
    rw [← hidx, Nat.shiftRight_eq_div_pow]
  have hst : statusOf r = "Finished" := by
    unfold statusOf
    rw [if_pos (Or.inl hix)]
  refine ⟨_, _, process_slot_eq pos buf st r hr hslot hv hc, ?_, ?_⟩
  · show statusOf r = "Finished"
    exact hst
  · show statusOf r ≠ "Charging"
    rw [hst]
    decide

/-- A Finished-while-stage-charging record: first byte 6, prg 0x47 (status
index 4, program Charge), stg 1, switch 1. -/
def c7Buf : List Nat :=
  [6, 0, 0, 0x47, 1, 0, 0, 0, 0, 0, 0, 0, 0, 0, 0, 0, 0, 1, 0, 0, 0, 0]

/-- The record c7Buf parses to. -/
def c7Rec : SlotRecord :=
  { slot := 6, c1 := 0, prg := 0x47, stg := 1, ccap1 := 0, ccap2 := 0,
    dcap1 := 0, dcap2 := 0, volt := 0, curr := 0, hour := 0, minute := 0,
    switch := 1, act := 0, aux1 := 0, maxcurr := 0, counter := 0 }

theorem c7_status_priority_witness :
    ∃ rd st2, process_slot 6 c7Buf zeroState = some (rd, st2) ∧
      rd.status = "Finished" ∧ rd.status ≠ "Charging" :=
  c7_status_priority 6 c7Buf zeroState c7Rec (by decide) (by decide)
    (by decide) (by decide) (by decide) (by decide)
